import Mathlib

set_option maxRecDepth 100000

/-!
Verification of the NodeRAG document pipeline against its sources:
`src/NodeRAG/utils/document_loader.py` and
`src/NodeRAG/build/pipeline/INIT_pipeline.py`.
Strings are embedded as `List Char` / `String`, the stateful while loop of
the fallback chunker as a fuel-indexed recursion, and the filesystem that
`check_increment` touches as an explicit `Option HashRecord` value.
-/

/-! ## Fallback chunker (`DocumentLoader._simple_chunk_text`) -/

/-- Whether `sep` occurs in `text` starting at position `p`
(the occurrence test underlying Python's `str.rfind`). -/
def matchesAt (text sep : List Char) (p : Nat) : Bool :=
  sep.isPrefixOf (text.drop p)

/-- Helper for `rfind`: tries positions `s + k - 1`, `s + k - 2`, ..., `s`
in that order and returns the first (hence largest) match. -/
def rfindAux (text sep : List Char) (s : Nat) : Nat → Option Nat
  | 0 => none
  | k + 1 => if matchesAt text sep (s + k) then some (s + k) else rfindAux text sep s k

/-- Embedding of Python's `text.rfind(sep, s, e)`: the largest position `p`
with `s ≤ p`, `p + sep.length ≤ e` and `sep` occurring in `text` at `p`;
`none` plays the role of Python's `-1`. -/
def rfind (text sep : List Char) (s e : Nat) : Option Nat :=
  if s + sep.length ≤ e then rfindAux text sep s (e + 1 - sep.length - s) else none

/-- The separator scan of `_simple_chunk_text`: the first separator in the
list with an occurrence in `text[s:e]` moves the chunk end to just after
that occurrence; otherwise the end stays at `e`. -/
def findBreak (text : List Char) (s e : Nat) : List (List Char) → Nat
  | [] => e
  | sep :: seps =>
    match rfind text sep s e with
    | some p => p + sep.length
    | none => findBreak text s e seps

/-- The separator priority list `['\n\n', '\n', '. ', '! ', '? ']` of
`_simple_chunk_text`. -/
def separators : List (List Char) :=
  [['\n', '\n'], ['\n'], ['.', ' '], ['!', ' '], ['?', ' ']]

/-- One iteration's chunk end: `end = min(start + chunk_size, len(text))`,
then boundary adjustment via the separator scan when `end < len(text)`. -/
def chunkEnd (text : List Char) (cs start : Nat) : Nat :=
  if min (start + cs) text.length < text.length then
    findBreak text start (min (start + cs) text.length) separators
  else min (start + cs) text.length

/-- The `while start < text_len` loop of `_simple_chunk_text`, indexed by
fuel: each iteration appends `text[start:end]` and sets
`start = max(start, end - overlap)`; `none` means the fuel was exhausted
with the loop still running. -/
def chunkLoop (text : List Char) (cs ov : Nat) : Nat → Nat → List (List Char) → Option (List (List Char))
  | 0, start, acc => if start < text.length then none else some acc
  | fuel + 1, start, acc =>
    if start < text.length then
      chunkLoop text cs ov fuel (max start (chunkEnd text cs start - ov))
        (acc ++ [(text.drop start).take (chunkEnd text cs start - start)])
    else some acc

/-- `DocumentLoader._simple_chunk_text(text, chunk_size, overlap)` run with
`fuel` permitted loop iterations, starting from `start = 0` and an empty
chunk list. -/
def simple_chunk_text (fuel : Nat) (text : List Char) (chunk_size overlap : Nat) : Option (List (List Char)) :=
  chunkLoop text chunk_size overlap fuel 0 []

/-! ## SHA-256 and `genid`

`genid` is imported by `INIT_pipeline.py` from `NodeRAG.storage`, which is
not among the sources; it is modelled from the spec below. -/

/-- 32-bit right rotation on a `Nat` holding a value `< 2^32`. -/
def rotr32 (x n : Nat) : Nat :=
  ((x >>> n) ||| (x <<< (32 - n))) % 4294967296

/-- The SHA-256 round constants (FIPS 180-4, written in decimal). -/
def sha256K : List Nat :=
  [1116352408, 1899447441, 3049323471, 3921009573, 961987163, 1508970993,
   2453635748, 2870763221, 3624381080, 310598401, 607225278, 1426881987,
   1925078388, 2162078206, 2614888103, 3248222580, 3835390401, 4022224774,
   264347078, 604807628, 770255983, 1249150122, 1555081692, 1996064986,
   2554220882, 2821834349, 2952996808, 3210313671, 3336571891, 3584528711,
   113926993, 338241895, 666307205, 773529912, 1294757372, 1396182291,
   1695183700, 1986661051, 2177026350, 2456956037, 2730485921, 2820302411,
   3259730800, 3345764771, 3516065817, 3600352804, 4094571909, 275423344,
   430227734, 506948616, 659060556, 883997877, 958139571, 1322822218,
   1537002063, 1747873779, 1955562222, 2024104815, 2227730452, 2361852424,
   2428436474, 2756734187, 3204031479, 3329325298]

/-- The SHA-256 initial hash state (FIPS 180-4, written in decimal). -/
def sha256H0 : List Nat :=
  [1779033703, 3144134277, 1013904242, 2773480762,
   1359893119, 2600822924, 528734635, 1541459225]

/-- SHA-256 padding: append `0x80`, zeros to 56 mod 64 bytes, then the bit
length as an 8-byte big-endian integer. -/
def sha256pad (msg : List Nat) : List Nat :=
  let bitLen := 8 * msg.length
  msg ++ 0x80 :: List.replicate ((119 - msg.length % 64) % 64) 0 ++
    [(bitLen >>> 56) % 256, (bitLen >>> 48) % 256, (bitLen >>> 40) % 256, (bitLen >>> 32) % 256,
     (bitLen >>> 24) % 256, (bitLen >>> 16) % 256, (bitLen >>> 8) % 256, bitLen % 256]

/-- Big-endian grouping of bytes into 32-bit words. -/
def bytesToWords : List Nat → List Nat
  | a :: b :: c :: d :: rest => ((a <<< 24) ||| (b <<< 16) ||| (c <<< 8) ||| d) :: bytesToWords rest
  | _ => []

/-- Extends a 16-word block to the 64-word message schedule
(`k` further words are appended). -/
def sha256Extend : Nat → List Nat → List Nat
  | 0, w => w
  | k + 1, w =>
    let i := w.length
    let x15 := w.getD (i - 15) 0
    let x2 := w.getD (i - 2) 0
    let s0 := (rotr32 x15 7) ^^^ (rotr32 x15 18) ^^^ (x15 >>> 3)
    let s1 := (rotr32 x2 17) ^^^ (rotr32 x2 19) ^^^ (x2 >>> 10)
    sha256Extend k (w ++ [(w.getD (i - 16) 0 + s0 + w.getD (i - 7) 0 + s1) % 4294967296])

/-- One SHA-256 compression round on the 8-word working state. -/
def sha256Round (st : List Nat) (k w : Nat) : List Nat :=
  let a := st.getD 0 0
  let b := st.getD 1 0
  let c := st.getD 2 0
  let d := st.getD 3 0
  let e := st.getD 4 0
  let f := st.getD 5 0
  let g := st.getD 6 0
  let h := st.getD 7 0
  let s1 := (rotr32 e 6) ^^^ (rotr32 e 11) ^^^ (rotr32 e 25)
  let ch := (e &&& f) ^^^ ((e ^^^ 0xffffffff) &&& g)
  let t1 := (h + s1 + ch + k + w) % 4294967296
  let s0 := (rotr32 a 2) ^^^ (rotr32 a 13) ^^^ (rotr32 a 22)
  let maj := (a &&& b) ^^^ (a &&& c) ^^^ (b &&& c)
  let t2 := (s0 + maj) % 4294967296
  [(t1 + t2) % 4294967296, a, b, c, (d + t1) % 4294967296, e, f, g]

/-- Compresses one 16-word block into the hash state. -/
def sha256Block (h block : List Nat) : List Nat :=
  let w := sha256Extend 48 block
  let fin := (sha256K.zip w).foldl (fun st kw => sha256Round st kw.1 kw.2) h
  List.zipWith (fun x y => (x + y) % 4294967296) h fin

/-- Processes the padded word stream block by block (`blocks` many). -/
def sha256Blocks : Nat → List Nat → List Nat → List Nat
  | 0, h, _ => h
  | k + 1, h, ws => sha256Blocks k (sha256Block h (ws.take 16)) (ws.drop 16)

/-- SHA-256 of a byte list, as the list of eight 32-bit digest words. -/
def sha256 (msg : List Nat) : List Nat :=
  let ws := bytesToWords (sha256pad msg)
  sha256Blocks (ws.length / 16) sha256H0 ws

/-- UTF-8 encoding of one character. -/
def utf8Char (c : Char) : List Nat :=
  let n := c.toNat
  if n < 0x80 then [n]
  else if n < 0x800 then [0xc0 ||| (n >>> 6), 0x80 ||| (n &&& 0x3f)]
  else if n < 0x10000 then
    [0xe0 ||| (n >>> 12), 0x80 ||| ((n >>> 6) &&& 0x3f), 0x80 ||| (n &&& 0x3f)]
  else
    [0xf0 ||| (n >>> 18), 0x80 ||| ((n >>> 12) &&& 0x3f), 0x80 ||| ((n >>> 6) &&& 0x3f),
     0x80 ||| (n &&& 0x3f)]

/-- UTF-8 encoding of a character list. -/
def utf8Encode (s : List Char) : List Nat :=
  (s.map utf8Char).flatten

/-- Modelled from the spec: `genid(content, "sha256")` (imported from
`NodeRAG.storage`, whose source is not part of the given sources) is the
deterministic content-addressable SHA-256 hash of the string's UTF-8
encoding; the digest is represented as its eight 32-bit words. -/
def genid (content : String) : List Nat :=
  sha256 (utf8Encode content.data)

/-! ## `os.path` helpers used by the pipeline -/

/-- Last index of character `c` in a list (Python `str.rfind(c)` with `none`
for `-1`). -/
def rfindChar (c : Char) : List Char → Option Nat
  | [] => none
  | x :: xs =>
    match rfindChar c xs with
    | some i => some (i + 1)
    | none => if x = c then some 0 else none

/-- The extension part of `os.path.splitext(name)` (POSIX): the suffix from
the last dot, provided that dot comes after the last path separator and at
least one non-dot character stands between them (so dotfiles such as
`.bashrc` have no extension). -/
def splitext_ext (name : List Char) : List Char :=
  match rfindChar '.' name with
  | none => []
  | some d =>
    match rfindChar '/' name with
    | none =>
      if (name.take d).any (fun ch => ch != '.') then name.drop d else []
    | some sp =>
      if sp < d then
        if ((name.drop (sp + 1)).take (d - (sp + 1))).any (fun ch => ch != '.') then
          name.drop d
        else []
      else []

/-- Python `str.lower`, characterwise. -/
def lowerStr (s : List Char) : List Char :=
  s.map Char.toLower

/-- The lowercased extension of a path:
`os.path.splitext(file_path)[1].lower()`. -/
def extOf (file_path : String) : String :=
  String.mk (lowerStr (splitext_ext file_path.data))

/-- Whether a string starts with `/` (Python `b.startswith('/')`). -/
def startsWithSlash (b : String) : Bool :=
  match b.data with
  | '/' :: _ => true
  | _ => false

/-- Whether a string ends with `/`. -/
def endsWithSlash (a : String) : Bool :=
  match a.data.getLast? with
  | some '/' => true
  | _ => false

/-- POSIX `os.path.join(a, b)`. -/
def path_join (a b : String) : String :=
  if startsWithSlash b then b
  else if a = "" ∨ endsWithSlash a then a ++ b
  else a ++ "/" ++ b

/-! ## `INIT_pipeline` -/

/-- The single error raised by `load_files`
(`ValueError('No files found in ...')`), called `NoDocumentsFoundError` in
the spec. -/
inductive PipelineError
  | noDocumentsFound
deriving DecidableEq, Repr

/-- The `supported_extensions` table of `load_files`, resolved for a
`docu_type` tag: a dictionary lookup over the eight literal keys, with the
fallback `['.{docu_type}']` for any other tag. -/
def resolve_extensions (docu_type : String) : List String :=
  if docu_type = "mixed" then [".txt", ".md", ".pdf", ".csv", ".xlsx", ".xls", ".docx", ".pptx"]
  else if docu_type = "txt" then [".txt"]
  else if docu_type = "md" then [".md"]
  else if docu_type = "pdf" then [".pdf"]
  else if docu_type = "csv" then [".csv"]
  else if docu_type = "excel" then [".xlsx", ".xls"]
  else if docu_type = "docx" then [".docx"]
  else if docu_type = "pptx" then [".pptx"]
  else ["." ++ docu_type]

/-- The per-entry test of `load_files`: the entry's lowercased extension is
a member of the resolved extension list. -/
def file_matches (exts : List String) (file : String) : Bool :=
  decide (extOf file ∈ exts)

/-- The `for file in os.listdir(...)` loop of `load_files`: appends
`os.path.join(input_folder, file)` to `documents_path` for each matching
entry, in listing order. -/
def load_files_loop (exts : List String) (input_folder : String) : List String → List String → List String
  | [], docs => docs
  | f :: fs, docs =>
    if file_matches exts f then
      load_files_loop exts input_folder fs (docs ++ [path_join input_folder f])
    else
      load_files_loop exts input_folder fs docs

/-- `INIT_pipeline.load_files`, as a function of the configured
`docu_type`, the input folder, the directory listing, and the pipeline's
current `documents_path` (initially `[]`); raises when the resulting
`documents_path` is empty. -/
def load_files (docu_type input_folder : String) (listing docs : List String) :
    Except PipelineError (List String) :=
  let docs' := load_files_loop (resolve_extensions docu_type) input_folder listing docs
  if docs'.length = 0 then Except.error PipelineError.noDocumentsFound else Except.ok docs'

/-- `INIT_pipeline.document_path_hash`:
`genid(''.join(self.documents_path), "sha256")`. -/
def document_path_hash (documents_path : List String) : List Nat :=
  genid (String.join documents_path)

/-- The JSON record written by `save_document_hash`:
`{'document_path_hash': ..., 'document_path': ...}`. -/
structure HashRecord where
  document_path_hash : List Nat
  document_path : List String
deriving DecidableEq, Repr

/-- `INIT_pipeline.save_document_hash`: the record written for the current
`documents_path`. -/
def save_document_hash (documents_path : List String) : HashRecord :=
  { document_path_hash := document_path_hash documents_path,
    document_path := documents_path }

/-- `INIT_pipeline.check_increment`, with the file at
`config.document_hash_path` modelled as an `Option HashRecord`; returns the
boolean result together with the file's state after the call. -/
def check_increment (stored : Option HashRecord) (documents_path : List String) :
    Bool × Option HashRecord :=
  match stored with
  | none => (false, some (save_document_hash documents_path))
  | some r =>
    (if r.document_path_hash = document_path_hash documents_path then false else true, some r)

/-! ## `DocumentLoader.load_document` -/

/-- The environment of `load_document`: the external docling converter
(which may raise, carrying a message) and the built-in per-format loaders
`load_csv`, `load_excel`, `load_text`, abstracted as functions of the
path. -/
structure DocLoaderEnv where
  convert : String → Except String String
  load_csv : String → String
  load_excel : String → String
  load_text : String → String

/-- The two `ValueError`s of `load_document`, called
`UnsupportedFormatError` in the spec: `Failed to process file {path}: {e}`
(carrying the original conversion failure) and
`Cannot process file type {ext} without docling`. -/
inductive DocLoadError
  | conversionFallbackUnsupported (file_path : String) (msg : String)
  | unsupportedWithoutDocling (ext : String)
deriving DecidableEq, Repr

/-- `DocumentLoader.load_document`: with docling (`use_docling = true`)
conversion is attempted first for every path; on failure, and always
without docling, the built-in loader is dispatched on the lowercased
extension. -/
def load_document (use_docling : Bool) (env : DocLoaderEnv) (file_path : String) :
    Except DocLoadError String :=
  let ext := extOf file_path
  if use_docling then
    match env.convert file_path with
    | Except.ok text => Except.ok text
    | Except.error e =>
      if ext = ".csv" then Except.ok (env.load_csv file_path)
      else if ext = ".xlsx" ∨ ext = ".xls" then Except.ok (env.load_excel file_path)
      else if ext = ".txt" ∨ ext = ".md" then Except.ok (env.load_text file_path)
      else Except.error (DocLoadError.conversionFallbackUnsupported file_path e)
  else
    if ext = ".csv" then Except.ok (env.load_csv file_path)
    else if ext = ".xlsx" ∨ ext = ".xls" then Except.ok (env.load_excel file_path)
    else if ext = ".txt" ∨ ext = ".md" then Except.ok (env.load_text file_path)
    else Except.error (DocLoadError.unsupportedWithoutDocling ext)

/-- A concrete loader environment whose converter always raises `"boom"`,
used to instantiate the dispatch theorem. -/
def sampleDocEnv : DocLoaderEnv :=
  { convert := fun _ => Except.error "boom",
    load_csv := fun _ => "CSV",
    load_excel := fun _ => "EXCEL",
    load_text := fun _ => "TEXT" }

theorem rfindAux_some (text sep : List Char) (s : Nat) :
    ∀ k p, rfindAux text sep s k = some p → s ≤ p ∧ p < s + k := by
  intro k
  induction k with
  | zero => intro p h; simp [rfindAux] at h
  | succ k ih =>
    intro p h
    unfold rfindAux at h
    split at h
    · cases h; omega
    · have := ih p h; omega

theorem rfind_some (text sep : List Char) (s e p : Nat)
    (h : rfind text sep s e = some p) : s ≤ p ∧ p + sep.length ≤ e := by
  unfold rfind at h
  split at h
  · have := rfindAux_some text sep s _ p h; omega
  · cases h

theorem findBreak_le (text : List Char) (s e : Nat) :
    ∀ seps, findBreak text s e seps ≤ e := by
  intro seps
  induction seps with
  | nil => simp [findBreak]
  | cons sep seps ih =>
    unfold findBreak
    cases h : rfind text sep s e with
    | some p => exact (rfind_some text sep s e p h).2
    | none => exact ih

theorem findBreak_gt (text : List Char) (s e : Nat) (hse : s < e) :
    ∀ seps, (∀ sep ∈ seps, sep ≠ []) → s < findBreak text s e seps := by
  intro seps
  induction seps with
  | nil => intro _; simpa [findBreak] using hse
  | cons sep seps ih =>
    intro hne
    unfold findBreak
    cases h : rfind text sep s e with
    | some p =>
      have hb := rfind_some text sep s e p h
      have hne' : sep ≠ [] := hne sep (List.mem_cons_self sep seps)
      have hlen : 0 < sep.length := List.length_pos.mpr hne'
      show s < p + sep.length
      omega
    | none => exact ih (fun x hx => hne x (List.mem_cons_of_mem sep hx))

theorem chunkEnd_le (text : List Char) (cs start : Nat) :
    chunkEnd text cs start ≤ text.length := by
  unfold chunkEnd
  split
  · have := findBreak_le text start (min (start + cs) text.length) separators
    omega
  · omega

theorem chunkEnd_gt (text : List Char) (cs start : Nat)
    (h : start < text.length) (hcs : 1 ≤ cs) : start < chunkEnd text cs start := by
  unfold chunkEnd
  have hlt : start < min (start + cs) text.length := by omega
  split
  · exact findBreak_gt text start _ hlt separators (by decide)
  · omega

/-- With `overlap ≥ 1`, every iteration leaves `start < text.length`
(since the next start is `max start (chunkEnd - ov)` and
`chunkEnd ≤ text.length`), so the loop never exits: any amount of fuel is
exhausted. -/
theorem chunkLoop_nonterm (text : List Char) (cs ov : Nat) (hov : 1 ≤ ov) :
    ∀ fuel start acc, start < text.length → chunkLoop text cs ov fuel start acc = none := by
  intro fuel
  induction fuel with
  | zero => intro s acc h; simp [chunkLoop, h]
  | succ f ih =>
    intro s acc h
    have hle := chunkEnd_le text cs s
    simp only [chunkLoop, if_pos h]
    exact ih _ _ (by omega)

/-- Nontermination of the full chunker on any non-empty text when
`overlap ≥ 1`. -/
theorem simple_chunk_text_nonterm (text : List Char) (cs ov : Nat)
    (hov : 1 ≤ ov) (htext : text ≠ []) :
    ∀ fuel, simple_chunk_text fuel text cs ov = none := by
  intro fuel
  exact chunkLoop_nonterm text cs ov hov fuel 0 []
    (by cases text with | nil => exact absurd rfl htext | cons a t => simp)

/-- Any run of the loop with `overlap = 0` that returns a chunk list
satisfies: the joined result is the joined accumulator followed by the
unprocessed suffix of the text. -/
theorem chunkLoop_join (text : List Char) (cs : Nat) (hcs : 1 ≤ cs) :
    ∀ fuel start acc l, chunkLoop text cs 0 fuel start acc = some l →
      l.flatten = acc.flatten ++ text.drop start := by
  intro fuel
  induction fuel with
  | zero =>
    intro s acc l h
    by_cases hs : s < text.length
    · simp [chunkLoop, hs] at h
    · simp [chunkLoop, hs] at h
      rw [← h, List.drop_eq_nil_of_le (by omega), List.append_nil]
  | succ f ih =>
    intro s acc l h
    by_cases hs : s < text.length
    · have hgt := chunkEnd_gt text cs s hs hcs
      have hle := chunkEnd_le text cs s
      simp only [chunkLoop, if_pos hs] at h
      rw [show max s (chunkEnd text cs s - 0) = chunkEnd text cs s by omega] at h
      have hrec := ih _ _ _ h
      rw [hrec]
      simp only [List.flatten_append, List.flatten_cons, List.flatten_nil, List.append_nil]
      rw [List.append_assoc]
      congr 1
      have hdd : (text.drop s).drop (chunkEnd text cs s - s) = text.drop (chunkEnd text cs s) := by
        rw [List.drop_drop]
        congr 1
        omega
      conv_rhs => rw [← List.take_append_drop (chunkEnd text cs s - s) (text.drop s)]
      rw [hdd]
    · simp [chunkLoop, hs] at h
      rw [← h, List.drop_eq_nil_of_le (by omega), List.append_nil]

/-- Termination with `overlap = 0`: given at least `text.length - start`
fuel the loop returns, appending chunks whose join is the remaining text. -/
theorem chunkLoop_ov0_terminates (text : List Char) (cs : Nat) (hcs : 1 ≤ cs) :
    ∀ fuel start acc, text.length - start ≤ fuel →
      ∃ l, chunkLoop text cs 0 fuel start acc = some l := by
  intro fuel
  induction fuel with
  | zero =>
    intro s acc h
    refine ⟨acc, ?_⟩
    simp [chunkLoop, show ¬ s < text.length by omega]
  | succ f ih =>
    intro s acc h
    by_cases hs : s < text.length
    · have hgt := chunkEnd_gt text cs s hs hcs
      have hle := chunkEnd_le text cs s
      simp only [chunkLoop, if_pos hs]
      exact ih _ _ (by omega)
    · exact ⟨acc, by simp [chunkLoop, hs]⟩

/-- C1 (amended): with `chunk_size ≥ 1`, the fallback chunker terminates if
and only if `overlap = 0` or the text is empty. The advance step
`start = max(start, end - overlap)` does NOT guarantee forward progress:
since `end ≤ len(text)` always, any positive overlap keeps
`start < len(text)` forever on a non-empty text. -/
theorem C1_chunker_terminates_iff (text : List Char) (cs ov : Nat) (hcs : 1 ≤ cs) :
    (∃ fuel, (simple_chunk_text fuel text cs ov).isSome = true) ↔ ov = 0 ∨ text = [] := by
  constructor
  · rintro ⟨fuel, hf⟩
    by_contra hc
    push_neg at hc
    have hov : 1 ≤ ov := Nat.pos_of_ne_zero hc.1
    rw [simple_chunk_text_nonterm text cs ov hov hc.2 fuel] at hf
    simp at hf
  · intro h
    cases h with
    | inl h0 =>
      subst h0
      obtain ⟨l, hl⟩ := chunkLoop_ov0_terminates text cs hcs text.length 0 [] (by omega)
      exact ⟨text.length, by simp [simple_chunk_text, hl]⟩
    | inr he =>
      subst he
      exact ⟨0, by simp [simple_chunk_text, chunkLoop]⟩

/-- C1 counterexample: on the text `"ab"` with `chunk_size = 1` and
`overlap = 1` the loop never reaches `start ≥ len(text)`: no amount of
fuel makes `_simple_chunk_text` return, refuting the claimed guaranteed
termination for every `chunk_size ≥ 1`, `overlap ≥ 0`. -/
theorem C1_counterexample :
    ¬ ∃ fuel, (simple_chunk_text fuel ['a', 'b'] 1 1).isSome = true := by
  rintro ⟨fuel, hf⟩
  rw [simple_chunk_text_nonterm ['a', 'b'] 1 1 (by decide) (by decide) fuel] at hf
  simp at hf

/-- C1 witness: the amended equivalence instantiated at text `"a"`,
`chunk_size = 1`, `overlap = 0`. -/
theorem C1_witness :
    1 ≤ 1 ∧ ((∃ fuel, (simple_chunk_text fuel ['a'] 1 0).isSome = true) ↔
      (0 : Nat) = 0 ∨ (['a'] : List Char) = []) :=
  ⟨Nat.le_refl 1, C1_chunker_terminates_iff ['a'] 1 0 (Nat.le_refl 1)⟩

/-- C2: on `"x" * 500` with `chunk_size = 1000`, `overlap = 200` the code
does NOT return the one-element list containing the input: after the first
iteration `start` sticks at `max(300, 500 - 200) = 300 < 500`, so the loop
runs forever and no chunk list is ever produced. -/
theorem C2_short_text_nonterminating :
    ¬ ∃ fuel, (simple_chunk_text fuel (List.replicate 500 'x') 1000 200).isSome = true := by
  rintro ⟨fuel, hf⟩
  rw [simple_chunk_text_nonterm (List.replicate 500 'x') 1000 200 (by omega)
    (by apply List.ne_nil_of_length_pos; rw [List.length_replicate]; omega) fuel] at hf
  simp at hf

/-- C3 counterexample: `chunk("abc", chunkSize = 10, overlap = 10)` does not
terminate (the claim says it terminates with `ceil(3/10) = 1` chunk). -/
theorem C3_counterexample :
    ¬ ∃ fuel, (simple_chunk_text fuel ['a', 'b', 'c'] 10 10).isSome = true := by
  rintro ⟨fuel, hf⟩
  rw [simple_chunk_text_nonterm ['a', 'b', 'c'] 10 10 (by decide) (by decide) fuel] at hf
  simp at hf

/-- C3 (amended): for every non-empty text and `overlap ≥ chunk_size ≥ 1`
the fallback chunker never terminates: the saturating advance
`start = max(start, end - overlap)` leaves `start` strictly below
`len(text)` on every iteration, so no chunk list is produced at all
(rather than `ceil(len(text)/chunkSize)` chunks advancing by
`chunk_size`). -/
theorem C3_overlap_ge_size_nonterminating (text : List Char) (cs ov : Nat)
    (hcs : 1 ≤ cs) (hov : cs ≤ ov) (htext : text ≠ []) :
    ∀ fuel, simple_chunk_text fuel text cs ov = none :=
  fun fuel => simple_chunk_text_nonterm text cs ov (by omega) htext fuel

/-- C3 witness: the amended nontermination statement instantiated at
text `"a"`, `chunk_size = 1`, `overlap = 1`, fuel `7`. -/
theorem C3_witness : simple_chunk_text 7 ['a'] 1 1 = none :=
  C3_overlap_ge_size_nonterminating ['a'] 1 1 (by decide) (by decide) (by decide) 7

/-- C8 counterexample: with the algorithm's stated parameters
(`chunk_size = 1000`, `overlap = 200`) no chunk list is ever produced for
the text `"a"`, so no concatenation of chunks can reconstruct it: the
claimed round trip fails for this text. -/
theorem C8_counterexample :
    ¬ ∃ fuel, (simple_chunk_text fuel ['a'] 1000 200).isSome = true := by
  rintro ⟨fuel, hf⟩
  rw [simple_chunk_text_nonterm ['a'] 1000 200 (by omega) (by decide) fuel] at hf
  simp at hf

/-- C8 (amended): whenever the fallback chunker does return a chunk list
(with `chunk_size ≥ 1` — which by C1 requires `overlap = 0` or an empty
text, so consecutive chunks share no overlapping prefix and overlap
removal is vacuous), plain concatenation of the chunks reconstructs the
original text exactly. -/
theorem C8_roundtrip (text : List Char) (cs ov fuel : Nat) (l : List (List Char))
    (hcs : 1 ≤ cs) (h : simple_chunk_text fuel text cs ov = some l) :
    l.flatten = text := by
  cases Nat.eq_zero_or_pos ov with
  | inl h0 =>
    subst h0
    simpa using chunkLoop_join text cs hcs fuel 0 [] l h
  | inr hpos =>
    by_cases htext : text = []
    · subst htext
      cases fuel with
      | zero =>
        simp [simple_chunk_text, chunkLoop] at h
        subst h
        rfl
      | succ f =>
        simp [simple_chunk_text, chunkLoop] at h
        subst h
        rfl
    · rw [simple_chunk_text_nonterm text cs ov hpos htext fuel] at h
      cases h

/-- C8 witness: the round trip instantiated at `"ab"`, `chunk_size = 1`,
`overlap = 0`, fuel `2`, which produces the chunks `["a", "b"]`. -/
theorem C8_witness : ([['a'], ['b']] : List (List Char)).flatten = ['a', 'b'] :=
  C8_roundtrip ['a', 'b'] 1 0 2 [['a'], ['b']] (by decide) (by decide)

/-- Unrolling `String.join`'s fold: the underlying character list is the
flattening of the members' character lists. -/
theorem foldl_append_data (l : List String) :
    ∀ init : String, (l.foldl (fun r s => r ++ s) init).data =
      init.data ++ (l.map String.data).flatten := by
  induction l with
  | nil => intro init; simp
  | cons s t ih =>
    intro init
    rw [List.foldl_cons, ih, String.data_append]
    simp [List.append_assoc]

/-- `(''.join(l)).data` is the concatenation of the members' data. -/
theorem join_data (l : List String) :
    (String.join l).data = (l.map String.data).flatten := by
  rw [String.join, foldl_append_data]
  rfl

/-- The `for` loop of `load_files` appends exactly the matching entries of
the listing, joined to the folder, in listing order, after the existing
`documents_path`. -/
theorem load_files_loop_eq (exts : List String) (folder : String) :
    ∀ listing docs, load_files_loop exts folder listing docs =
      docs ++ (listing.filter (file_matches exts)).map (path_join folder) := by
  intro listing
  induction listing with
  | nil => intro docs; simp [load_files_loop]
  | cons f fs ih =>
    intro docs
    by_cases h : file_matches exts f
    · simp [load_files_loop, h, ih, List.filter_cons, List.append_assoc]
    · simp [load_files_loop, h, ih, List.filter_cons]

/-- Every extension in a resolved extension list is a non-empty string. -/
theorem mem_resolve_length (tag : String) : ∀ e ∈ resolve_extensions tag, 0 < e.length := by
  unfold resolve_extensions
  split_ifs <;> try decide
  intro e he
  simp only [List.mem_singleton] at he
  subst he
  rw [String.length_append]
  have h1 : (".").length = 1 := rfl
  omega

/-- Every extension in a resolved extension list has non-empty data. -/
theorem mem_resolve_data_ne (tag e : String) (he : e ∈ resolve_extensions tag) :
    e.data ≠ [] := by
  have h := mem_resolve_length tag e he
  exact List.ne_nil_of_length_pos h

/-- A directory entry accepted by `load_files` is a non-empty name (its
extension is a member of the resolved list, and those are non-empty). -/
theorem file_matches_data_ne (tag f : String)
    (h : file_matches (resolve_extensions tag) f = true) : f.data ≠ [] := by
  intro hf
  have hm : extOf f ∈ resolve_extensions tag := of_decide_eq_true h
  apply mem_resolve_data_ne tag _ hm
  show (extOf f).data = []
  unfold extOf
  rw [hf]
  rfl

/-- `os.path.join` of a non-empty last component is non-empty. -/
theorem path_join_data_ne (a b : String) (hb : b.data ≠ []) :
    (path_join a b).data ≠ [] := by
  unfold path_join
  split_ifs with h1 h2
  · exact hb
  · rw [String.data_append]
    simp [hb]
  · rw [String.data_append, String.data_append]
    simp

/-- C4: `check_increment` with no existing record writes a fresh record
(current fingerprint and path set) and reports `false`; with an existing
record it reports `true` iff the stored fingerprint differs from the
freshly computed one, and on equality reports `false` leaving the stored
record untouched. -/
theorem C4_check_increment_behaviour :
    (∀ docs, check_increment none docs =
      (false, some { document_path_hash := document_path_hash docs, document_path := docs })) ∧
    (∀ r docs, (check_increment (some r) docs).1 = true ↔
      r.document_path_hash ≠ document_path_hash docs) ∧
    (∀ r docs, r.document_path_hash = document_path_hash docs →
      check_increment (some r) docs = (false, some r)) := by
  refine ⟨fun docs => rfl, fun r docs => ?_, fun r docs h => ?_⟩
  · simp only [check_increment]
    split_ifs with h
    · simp [h]
    · simp [h]
  · simp [check_increment, h]

/-- C4 witness: the equal-fingerprint conjunct instantiated at the record
freshly saved for `["a"]`. -/
theorem C4_witness :
    check_increment (some (save_document_hash ["a"])) ["a"] =
      (false, some (save_document_hash ["a"])) :=
  C4_check_increment_behaviour.2.2 (save_document_hash ["a"]) ["a"] rfl

/-- C10: the change decision reads only the `document_path_hash` field of
the stored record: two records with equal fingerprints but arbitrary
(possibly different) stored path lists give the same `check_increment`
result. -/
theorem C10_decision_ignores_stored_paths (r1 r2 : HashRecord) (docs : List String)
    (h : r1.document_path_hash = r2.document_path_hash) :
    (check_increment (some r1) docs).1 = (check_increment (some r2) docs).1 := by
  simp only [check_increment, h]

/-- C10 witness: two stored records with the same fingerprint `[1, 2]` but
different stored path lists produce the same decision. -/
theorem C10_witness :
    (check_increment (some { document_path_hash := [1, 2], document_path := ["a"] }) ["p"]).1 =
    (check_increment (some { document_path_hash := [1, 2], document_path := ["x", "y"] }) ["p"]).1 :=
  C10_decision_ignores_stored_paths _ _ ["p"] rfl

/-- C5 counterexample: with the unrecognized tag `"TXT"` the resolved
extension list is `[".TXT"]`, and the entry `"a.TXT"` — whose extension
matches `".TXT"` case-insensitively (both lowercase to `".txt"`) and even
literally — is nevertheless rejected, because the code lowercases only the
entry's extension before a literal comparison; the claimed case-insensitive
filtering would have accepted it instead of failing. -/
theorem C5_counterexample :
    load_files "TXT" "in" ["a.TXT"] [] = Except.error PipelineError.noDocumentsFound ∧
    resolve_extensions "TXT" = [".TXT"] ∧
    lowerStr (splitext_ext "a.TXT".data) = ".txt".data ∧
    lowerStr ".TXT".data = ".txt".data :=
  ⟨rfl, rfl, rfl, rfl⟩

/-- C5 (amended): the tag table resolves as listed (`mixed` being the union
of all eight supported extensions) and an unrecognized tag resolves to the
literal `.{tag}`; entries are kept, preserving directory-listing order, by
lowercasing the entry's extension and comparing it literally against the
resolved list (so matching is insensitive to the entry's case for the
built-in lowercase tables, but a tag containing uppercase can never be
matched); an empty result fails with `NoDocumentsFoundError`. -/
theorem C5_load_files_resolution :
    (resolve_extensions "mixed" =
        [".txt", ".md", ".pdf", ".csv", ".xlsx", ".xls", ".docx", ".pptx"] ∧
      resolve_extensions "txt" = [".txt"] ∧
      resolve_extensions "md" = [".md"] ∧
      resolve_extensions "pdf" = [".pdf"] ∧
      resolve_extensions "csv" = [".csv"] ∧
      resolve_extensions "excel" = [".xlsx", ".xls"] ∧
      resolve_extensions "docx" = [".docx"] ∧
      resolve_extensions "pptx" = [".pptx"]) ∧
    (∀ tag : String,
      tag ∉ ["mixed", "txt", "md", "pdf", "csv", "excel", "docx", "pptx"] →
      resolve_extensions tag = ["." ++ tag]) ∧
    (∀ tag folder : String, ∀ listing l : List String,
      load_files tag folder listing [] = Except.ok l →
      l = (listing.filter (file_matches (resolve_extensions tag))).map (path_join folder)) ∧
    (∀ tag folder : String, ∀ listing : List String,
      load_files tag folder listing [] = Except.error PipelineError.noDocumentsFound ↔
      listing.filter (file_matches (resolve_extensions tag)) = []) ∧
    (file_matches [".txt"] "a.TXT" = true ∧ file_matches [".TXT"] "a.TXT" = false) := by
  refine ⟨by decide, ?_, ?_, ?_, by decide⟩
  · intro tag htag
    simp only [List.mem_cons, List.not_mem_nil, or_false, not_or] at htag
    obtain ⟨h1, h2, h3, h4, h5, h6, h7, h8⟩ := htag
    simp [resolve_extensions, h1, h2, h3, h4, h5, h6, h7, h8]
  · intro tag folder listing l h
    simp only [load_files, load_files_loop_eq, List.nil_append] at h
    by_cases hlen :
        ((listing.filter (file_matches (resolve_extensions tag))).map (path_join folder)).length = 0
    · rw [if_pos hlen] at h
      cases h
    · rw [if_neg hlen] at h
      exact (Except.ok.inj h).symm
  · intro tag folder listing
    simp only [load_files, load_files_loop_eq, List.nil_append]
    by_cases hlen :
        ((listing.filter (file_matches (resolve_extensions tag))).map (path_join folder)).length = 0
    · rw [if_pos hlen]
      rw [List.length_map] at hlen
      simp [List.eq_nil_of_length_eq_zero hlen]
    · rw [if_neg hlen]
      constructor
      · intro h
        cases h
      · intro h
        rw [h] at hlen
        simp at hlen

/-- C5 witness: the unrecognized-tag conjunct instantiated at `"jpeg"`. -/
theorem C5_witness : resolve_extensions "jpeg" = ["." ++ "jpeg"] :=
  C5_load_files_resolution.2.1 "jpeg" (by decide)

/-- C6: with the docling capability present, conversion is attempted first
for every path (any extension) and its success is returned as-is; when it
raises, the built-in loader handles `.csv`, `.xlsx`/`.xls`, `.txt`, `.md`,
and any other extension fails with the error carrying the original
conversion failure; without the capability the built-in loader is used
directly (the converter is never consulted) and unsupported extensions
fail. -/
theorem C6_load_document_dispatch :
    (∀ (env : DocLoaderEnv) (p t : String), env.convert p = Except.ok t →
      load_document true env p = Except.ok t) ∧
    (∀ (env : DocLoaderEnv) (p e : String), env.convert p = Except.error e →
      (extOf p = ".csv" → load_document true env p = Except.ok (env.load_csv p)) ∧
      (extOf p = ".xlsx" ∨ extOf p = ".xls" →
        load_document true env p = Except.ok (env.load_excel p)) ∧
      (extOf p = ".txt" ∨ extOf p = ".md" →
        load_document true env p = Except.ok (env.load_text p)) ∧
      (extOf p ∉ [".csv", ".xlsx", ".xls", ".txt", ".md"] →
        load_document true env p =
          Except.error (DocLoadError.conversionFallbackUnsupported p e))) ∧
    (∀ (env : DocLoaderEnv) (p : String),
      (extOf p = ".csv" → load_document false env p = Except.ok (env.load_csv p)) ∧
      (extOf p = ".xlsx" ∨ extOf p = ".xls" →
        load_document false env p = Except.ok (env.load_excel p)) ∧
      (extOf p = ".txt" ∨ extOf p = ".md" →
        load_document false env p = Except.ok (env.load_text p)) ∧
      (extOf p ∉ [".csv", ".xlsx", ".xls", ".txt", ".md"] →
        load_document false env p =
          Except.error (DocLoadError.unsupportedWithoutDocling (extOf p)))) ∧
    (∀ (c c' : String → Except String String) (f1 f2 f3 : String → String) (p : String),
      load_document false ⟨c, f1, f2, f3⟩ p = load_document false ⟨c', f1, f2, f3⟩ p) := by
  refine ⟨?_, ?_, ?_, ?_⟩
  · intro env p t h
    simp [load_document, h]
  · intro env p e h
    refine ⟨?_, ?_, ?_, ?_⟩
    · intro hx
      simp [load_document, h, hx]
    · rintro (hx | hx) <;> simp [load_document, h, hx]
    · rintro (hx | hx) <;> simp [load_document, h, hx]
    · intro hm
      simp only [List.mem_cons, List.not_mem_nil, or_false, not_or] at hm
      obtain ⟨h1, h2, h3, h4, h5⟩ := hm
      simp [load_document, h, h1, h2, h3, h4, h5]
  · intro env p
    refine ⟨?_, ?_, ?_, ?_⟩
    · intro hx
      simp [load_document, hx]
    · rintro (hx | hx) <;> simp [load_document, hx]
    · rintro (hx | hx) <;> simp [load_document, hx]
    · intro hm
      simp only [List.mem_cons, List.not_mem_nil, or_false, not_or] at hm
      obtain ⟨h1, h2, h3, h4, h5⟩ := hm
      simp [load_document, h1, h2, h3, h4, h5]
  · intro c c' f1 f2 f3 p
    rfl

/-- C6 witness: a converter that raises `"boom"` on `"doc.pdf"` falls
through to the unsupported-format error carrying that failure. -/
theorem C6_witness :
    load_document true sampleDocEnv "doc.pdf" =
      Except.error (DocLoadError.conversionFallbackUnsupported "doc.pdf" "boom") :=
  (C6_load_document_dispatch.2.1 sampleDocEnv "doc.pdf" "boom" rfl).2.2.2 (by decide)

/-- C7: the fingerprint depends only on the concatenation of the paths in
their stored order (determinism over equal-content, equal-order sets), and
it does depend on the order: a permutation of the same paths can change
the digest. -/
theorem C7_fingerprint_properties :
    (∀ l1 l2 : List String, String.join l1 = String.join l2 →
      document_path_hash l1 = document_path_hash l2) ∧
    (∃ l1 l2 : List String, l1.Perm l2 ∧ document_path_hash l1 ≠ document_path_hash l2) := by
  refine ⟨fun l1 l2 h => ?_, ⟨["a", "b"], ["b", "a"], List.Perm.swap "b" "a" [], ?_⟩⟩
  · simp [document_path_hash, genid, h]
  · decide

/-- C7 witness: determinism instantiated at two lists with the same
concatenation. -/
theorem C7_witness : document_path_hash ["ab"] = document_path_hash ["a", "b"] :=
  C7_fingerprint_properties.1 ["ab"] ["a", "b"] (by decide)

/-- C9: `load_files` appends to the existing `documents_path` without
resetting it, so a second call over the same unchanged listing returns the
first result concatenated with itself (each path twice); the fingerprint
input (the joined path string) then necessarily differs, and on a concrete
instance the `document_path_hash` itself differs. -/
theorem C9_second_call_duplicates :
    (∀ tag folder : String, ∀ listing l : List String,
      load_files tag folder listing [] = Except.ok l →
      load_files tag folder listing l = Except.ok (l ++ l) ∧
      String.join (l ++ l) ≠ String.join l) ∧
    document_path_hash ["in/a.txt", "in/a.txt"] ≠ document_path_hash ["in/a.txt"] := by
  constructor
  · intro tag folder listing l h
    -- first call: l is the filtered map and is non-empty
    simp only [load_files, load_files_loop_eq, List.nil_append] at h
    by_cases hlen :
        ((listing.filter (file_matches (resolve_extensions tag))).map (path_join folder)).length = 0
    · rw [if_pos hlen] at h
      cases h
    rw [if_neg hlen] at h
    have hl : l = (listing.filter (file_matches (resolve_extensions tag))).map (path_join folder) :=
      (Except.ok.inj h).symm
    have hne : l ≠ [] := by
      intro hnil
      rw [← hl, hnil] at hlen
      simp at hlen
    constructor
    · simp only [load_files, load_files_loop_eq]
      rw [← hl]
      have hll : ¬ (l ++ l).length = 0 := by
        cases l with
        | nil => exact absurd rfl hne
        | cons x xs => simp
      rw [if_neg hll]
    · -- the joined string strictly grows: the head path is non-empty
      obtain ⟨f, fs, hfil⟩ : ∃ f fs,
          listing.filter (file_matches (resolve_extensions tag)) = f :: fs := by
        cases hfl : listing.filter (file_matches (resolve_extensions tag)) with
        | nil => rw [hfl] at hl; simp at hl; exact absurd hl hne
        | cons f fs => exact ⟨f, fs, rfl⟩
      have hmemf : f ∈ listing.filter (file_matches (resolve_extensions tag)) := by
        rw [hfil]; exact List.mem_cons_self f fs
      have hmatch : file_matches (resolve_extensions tag) f = true :=
        (List.mem_filter.mp hmemf).2
      have hfne : f.data ≠ [] := file_matches_data_ne tag f hmatch
      have hpne : (path_join folder f).data ≠ [] := path_join_data_ne folder f hfne
      intro hjoin
      have hd : (String.join (l ++ l)).data = (String.join l).data := by rw [hjoin]
      rw [join_data, join_data, List.map_append, List.flatten_append] at hd
      have hlen := congrArg List.length hd
      rw [List.length_append] at hlen
      have hpos : 0 < ((l.map String.data).flatten).length := by
        rw [hl, hfil]
        simp only [List.map_cons, List.map_map, List.flatten_cons, List.length_append]
        have : 0 < ((path_join folder f).data).length :=
          List.length_pos.mpr hpne
        simp only [Function.comp] at *
        omega
      omega
  · decide

/-- C9 witness: one `a.txt` discovered in `in/`; the second call yields the
path twice and the joined fingerprint input differs. -/
theorem C9_witness :
    load_files "txt" "in" ["a.txt"] ["in/a.txt"] = Except.ok (["in/a.txt"] ++ ["in/a.txt"]) ∧
    String.join (["in/a.txt"] ++ ["in/a.txt"]) ≠ String.join ["in/a.txt"] :=
  C9_second_call_duplicates.1 "txt" "in" ["a.txt"] ["in/a.txt"] rfl
